import Mathlib

/-!
Verification development for the Salgstrener-AI voice-call core
(`src/components/CallInterface.tsx`) and the product-extraction service
(`src/services/gemini.ts`).

The TypeScript source is shallowly embedded: React refs and state become a
`Refs` record, the browser event callbacks (`onopen`, `onmessage` parts,
`onerror`, `onaudioprocess`, the button handlers) become explicit state
transformers, and audio-clock times / buffer durations are rationals.
Samples of a captured frame are rationals; the `Math.sqrt` in the RMS gate
is handled by comparing the mean square against the squared threshold, and
the equivalence with the source's `Math.sqrt(...) > 0.01` test is proved
against `Real.sqrt`.
-/

namespace Salgstrener

/-- Transcript roles, from `updateTranscript(role: 'user' | 'model', ...)`. -/
inductive Role where
  | user : Role
  | model : Role
deriving DecidableEq, Repr

/-- `ChatMessage` from `src/types.ts`: role, text, `Date.now()` timestamp. -/
structure ChatMessage where
  role : Role
  text : String
  timestamp : Int
deriving DecidableEq, Repr

/-- Component status, from `useState<'idle' | 'connecting' | 'connected' | 'error'>`. -/
inductive Status where
  | idle : Status
  | connecting : Status
  | connected : Status
  | error : Status
deriving DecidableEq, Repr

/-- A `MediaStream` held in `streamRef`; `stopped` records whether its
tracks have been stopped (`track.stop()` is idempotent). -/
structure MediaStream where
  stopped : Bool
deriving DecidableEq, Repr

/-- An audio node (`ScriptProcessorNode` / `MediaStreamAudioSourceNode`);
`connected` records whether it is wired into the graph (`disconnect()` is
an idempotent no-op on an already-disconnected node). -/
structure AudioNode where
  connected : Bool
deriving DecidableEq, Repr

/-- The live session handle from `ai.live.connect` (`sessionPromiseRef`);
`closed` records whether `close()` was ever called on it. -/
structure TransportSession where
  closed : Bool
deriving DecidableEq, Repr

/-- Playback-scheduler state: `nextStartTimeRef` and `audioQueueRef`.
Each active entry is `(scheduled start time, buffer duration)`. -/
structure SchedState where
  nextStartTime : Rat
  active : List (Rat × Rat)
deriving DecidableEq, Repr

/-- The mutable refs and React state of `CallInterface`, gathered in one
record.  `audioContext` is `some ()` while the output `AudioContext` is
open (`audioContextRef` is nulled right after `close()`); `isMuted` is the
live React state the mute button flips; `capturedMuted` is the `isMuted`
value the installed `onaudioprocess` handler closed over when
`setupAudioInput` ran — the handler is never reinstalled, so line 209
reads this captured value, not the live state; `volumeFrame` remembers the
frame whose loudness the UI currently displays (the displayed number is
`min 1 (5 * Real.sqrt (rmsSq frame))`, a function of the frame). -/
structure Refs where
  stream : Option MediaStream
  processor : Option AudioNode
  inputSource : Option AudioNode
  audioContext : Option Unit
  session : Option TransportSession
  sched : SchedState
  mounted : Bool
  status : Status
  errorMsg : String
  transcript : List ChatMessage
  isMuted : Bool
  capturedMuted : Bool
  volumeFrame : Option (List Rat)
deriving DecidableEq, Repr

/- ------------------------------------------------------------------ -/
/- Transcript assembly (`updateTranscript`, lines 36-48)               -/
/- ------------------------------------------------------------------ -/

/-- `updateTranscript`: if the last message has the same role, replace it by
a copy with the delta concatenated onto its text (keeping its timestamp);
otherwise push a fresh message with the current time. -/
def updateTranscript (role : Role) (text : String) (now : Int)
    (prev : List ChatMessage) : List ChatMessage :=
  match prev.getLast? with
  | some lastMsg =>
      if lastMsg.role = role then
        prev.dropLast ++ [{ lastMsg with text := lastMsg.text ++ text }]
      else
        prev ++ [{ role := role, text := text, timestamp := now }]
  | none => prev ++ [{ role := role, text := text, timestamp := now }]

/-- Fold a sequence of transcript deltas `(role, textDelta, arrivalTime)`
through `updateTranscript`. -/
def runDeltas (prev : List ChatMessage) : List (Role × String × Int) → List ChatMessage
  | [] => prev
  | (role, text, now) :: rest => runDeltas (updateTranscript role text now prev) rest

/- ------------------------------------------------------------------ -/
/- Voice activity gate (`onaudioprocess`, lines 208-233)               -/
/- ------------------------------------------------------------------ -/

/-- Mean square of a frame: `sum of x*x over samples / length`.  The source
computes `rms = Math.sqrt(sum / inputData.length)`; we keep the radicand. -/
def rmsSq (frame : List Rat) : Rat :=
  (frame.map (fun x => x * x)).sum / frame.length

/-- The VAD gate `rms > 0.01` of line 221, expressed on the squared scale:
for nonnegative values, `Math.sqrt m > 0.01` iff `m > 0.0001`
(theorem `vadForward_iff_rms_gt` proves this against `Real.sqrt`). -/
def vadForward (frame : List Rat) : Bool :=
  decide (1 / 10000 < rmsSq frame)

/- ------------------------------------------------------------------ -/
/- Playback scheduler (`onmessage` audio handling, lines 124-166)      -/
/- ------------------------------------------------------------------ -/

/-- Receiving a successfully decoded buffer of duration `d` while the output
clock reads `t` (lines 132, 140-150): `start = max(nextStartTime, t)`,
schedule at `start`, advance `nextStartTime` by the duration, register the
buffer in the active set. -/
def receiveBuffer (s : SchedState) (t d : Rat) : SchedState :=
  { nextStartTime := max s.nextStartTime t + d,
    active := s.active ++ [(max s.nextStartTime t, d)] }

/-- The start time the scheduler would assign to a buffer arriving at output
clock `t`. -/
def schedStartOf (s : SchedState) (t : Rat) : Rat :=
  max s.nextStartTime t

/-- Start times assigned to a sequence of `(arrival clock, duration)` chunks
delivered in order. -/
def schedStarts (s : SchedState) : List (Rat × Rat) → List Rat
  | [] => []
  | (t, d) :: rest => max s.nextStartTime t :: schedStarts (receiveBuffer s t d) rest

/-- The durations of a chunk sequence. -/
def durs (chunks : List (Rat × Rat)) : List Rat := chunks.map Prod.snd

/-- Uninterrupted, on-time delivery: each chunk arrives while the previous
audio is still playing (its arrival clock does not exceed the projected
`nextStartTime`). -/
def onTime (s : SchedState) : List (Rat × Rat) → Bool
  | [] => true
  | (t, d) :: rest => decide (t ≤ s.nextStartTime) && onTime (receiveBuffer s t d) rest

/- ------------------------------------------------------------------ -/
/- The event handlers of CallInterface, on `Refs`                      -/
/- ------------------------------------------------------------------ -/

/-- `setupAudioInput` (lines 201-240): guarded by `audioContextRef.current`;
creates and connects the input source node and the script processor.  The
`onaudioprocess` handler installed here closes over the `isMuted` binding
of the render that started the session, recorded as `capturedMuted`. -/
def setupAudioInput (r : Refs) : Refs :=
  if r.audioContext.isSome then
    { r with inputSource := some { connected := true },
             processor := some { connected := true },
             capturedMuted := r.isMuted }
  else r

/-- The `onopen` callback (lines 105-111): if still mounted, set status to
`connected` and wire up the audio input; a result arriving after unmount is
discarded. -/
def onopen (r : Refs) : Refs :=
  if r.mounted then setupAudioInput { r with status := Status.connected } else r

/-- Transcription part of `onmessage` (lines 116-121). -/
def onTranscriptDelta (r : Refs) (role : Role) (text : String) (now : Int) : Refs :=
  if r.mounted then { r with transcript := updateTranscript role text now r.transcript }
  else r

/-- Audio part of `onmessage` (lines 124-153).  `decode` is the outcome of
`decodeAudioData`: `some d` is a buffer of duration `d`, `none` a decode
failure (the `catch` logs and falls through).  Note line 132 updates
`nextStartTime = max(nextStartTime, ctx.currentTime)` before the `try`, so
it happens on the failure path too. -/
def onAudioChunk (r : Refs) (clock : Rat) (decode : Option Rat) : Refs :=
  if r.mounted && r.audioContext.isSome then
    match decode with
    | some d => { r with sched := receiveBuffer r.sched clock d }
    | none =>
        { r with sched := { r.sched with nextStartTime := max r.sched.nextStartTime clock } }
  else r

/-- Interruption part of `onmessage` (lines 157-166): stop every source in
the active set, clear the set, and (when the output context is live) reset
`nextStartTime` to the current clock.  The second component lists the
buffers on which `stop()` was called. -/
def onInterrupted (r : Refs) (clock : Rat) : Refs × List (Rat × Rat) :=
  if r.mounted then
    ({ r with sched :=
        { nextStartTime := if r.audioContext.isSome then clock else r.sched.nextStartTime,
          active := [] } },
     r.sched.active)
  else (r, [])

/-- The `onclose` callback (lines 168-170): logging only. -/
def onclose (r : Refs) : Refs := r

/-- The fixed message set by `onerror` (line 175). -/
def serverErrorMsg : String :=
  "Mistet kontakten med serveren. Sjekk internett eller prøv igjen."

/-- The `onerror` callback (lines 171-177): if mounted, flip status to
`error` and store the message.  Nothing else is touched: no resource is
released here. -/
def onerror (r : Refs) : Refs :=
  if r.mounted then { r with status := Status.error, errorMsg := serverErrorMsg } else r

/-- A `ServerEvent` delivered by the live session after it has opened. -/
inductive ServerEvent where
  | transcriptDelta (role : Role) (text : String) (now : Int) : ServerEvent
  | audioChunk (clock : Rat) (decode : Option Rat) : ServerEvent
  | interrupted (clock : Rat) : ServerEvent
  | closed : ServerEvent
  | errorEvt : ServerEvent
deriving DecidableEq, Repr

/-- Dispatch one server event to its handler. -/
def serverStep (r : Refs) : ServerEvent → Refs
  | ServerEvent.transcriptDelta role text now => onTranscriptDelta r role text now
  | ServerEvent.audioChunk clock decode => onAudioChunk r clock decode
  | ServerEvent.interrupted clock => (onInterrupted r clock).1
  | ServerEvent.closed => onclose r
  | ServerEvent.errorEvt => onerror r

/-- Process a sequence of server events in arrival order. -/
def serverRun (r : Refs) : List ServerEvent → Refs
  | [] => r
  | e :: es => serverRun (serverStep r e) es

/-- `startSession` (lines 50-187), with the `getUserMedia` outcome made
explicit: the guard returns early while connecting/connected; the success
path sets `connecting`, clears the error message, creates the output audio
context, acquires the microphone stream, and initiates `ai.live.connect`
(an unclosed session handle); the `catch` path flips to `error` with the
thrown message (the audio context created on line 60 stays held). -/
def startSession (r : Refs) (acq : Except String Unit) : Refs :=
  if r.status = Status.connecting ∨ r.status = Status.connected then r
  else
    match acq with
    | Except.ok _ =>
        { r with status := Status.connecting, errorMsg := "",
                 audioContext := some (), stream := some { stopped := false },
                 session := some { closed := false } }
    | Except.error e =>
        { r with audioContext := some (), status := Status.error, errorMsg := e }

/-- The retry button of the error view (line 278):
`setStatus('idle'); startSession()`. -/
def retryClick (r : Refs) (acq : Except String Unit) : Refs :=
  startSession { r with status := Status.idle } acq

/-- `track.stop()` on every track of the held stream (lines 243-245); the
ref itself is kept. -/
def stopTracks : Option MediaStream → Option MediaStream
  | none => none
  | some _ => some { stopped := true }

/-- `disconnect()` on a held node; a no-op when nothing is held, idempotent
when already disconnected. -/
def disconnectNode : Option AudioNode → Option AudioNode
  | none => none
  | some _ => some { connected := false }

/-- `cleanup` (lines 242-257): stop the stream's tracks; disconnect the
processor and null its ref; disconnect the input source (ref kept); close
the output audio context and null its ref.  The live session and the
playback active set are NOT touched. -/
def cleanup (r : Refs) : Refs :=
  { r with stream := stopTracks r.stream,
           processor := none,
           inputSource := disconnectNode r.inputSource,
           audioContext := none }

/-- Whether the capture-side resources are released: tracks stopped,
processor ref nulled, input source disconnected, audio context closed. -/
def resourcesReleased (r : Refs) : Bool :=
  (match r.stream with | none => true | some s => s.stopped) &&
  r.processor.isNone &&
  (match r.inputSource with | none => true | some n => !n.connected) &&
  r.audioContext.isNone

/-- Whether the transport session handle has been closed (vacuously true if
none was ever created). -/
def transportClosed (r : Refs) : Bool :=
  match r.session with
  | none => true
  | some s => s.closed

/-- `handleHangup` (lines 263-266): run `cleanup`, then hand the transcript
to `onEndCall`. -/
def handleHangup (r : Refs) : Refs × List ChatMessage :=
  (cleanup r, r.transcript)

/-- Component unmount (the `useEffect` teardown, lines 195-198):
`mountedRef.current = false; cleanup()`.  `onEndCall` / `onCancel` switch
the app away from `CALLING`, which unmounts `CallInterface`. -/
def unmount (r : Refs) : Refs :=
  cleanup { r with mounted := false }

/-- `toggleMute` (lines 259-261): flips the flag and nothing else. -/
def toggleMute (r : Refs) : Refs :=
  { r with isMuted := !r.isMuted }

/-- Observable effects of one `onaudioprocess` invocation: the frame whose
loudness was pushed to the visualizer (if any), and the frame forwarded to
the transport (if any; the wire payload is its PCM16 encoding). -/
structure FrameEffects where
  volumeFrame : Option (List Rat)
  sent : Option (List Rat)
deriving DecidableEq, Repr

/-- `onaudioprocess` (lines 208-233).  The handler is installed once by
`setupAudioInput`, and the line-209 guard reads the `isMuted` value its
closure captured at that render (`capturedMuted`) — a stale closure, since
`isMuted` is plain `useState` and the handler is never reinstalled, so mute
toggles after setup never reach it.  When the captured flag is set, return
immediately (no loudness, nothing sent, state untouched); otherwise compute
the loudness for the visualizer and forward the frame iff the VAD gate
passes and a session promise exists. -/
def onaudioprocess (r : Refs) (frame : List Rat) : Refs × FrameEffects :=
  if r.capturedMuted then (r, { volumeFrame := none, sent := none })
  else
    ({ r with volumeFrame := some frame },
     { volumeFrame := some frame,
       sent := if vadForward frame && r.session.isSome then some frame else none })

/-- Capture-side events: a captured frame arriving at the script processor,
or the user clicking the mute button. -/
inductive CaptureEvent where
  | frame (samples : List Rat) : CaptureEvent
  | toggle : CaptureEvent
deriving DecidableEq, Repr

/-- Run a sequence of capture-side events, collecting the frames forwarded
to the transport in order. -/
def captureRun (r : Refs) : List CaptureEvent → Refs × List (List Rat)
  | [] => (r, [])
  | CaptureEvent.toggle :: es => captureRun (toggleMute r) es
  | CaptureEvent.frame f :: es =>
      let p := onaudioprocess r f
      let q := captureRun p.1 es
      (q.1, (match p.2.sent with | some b => [b] | none => []) ++ q.2)

/-- What the component renders (lines 268-386), by status. -/
inductive View where
  | errorView (msg : String) (retryOffered cancelOffered : Bool) : View
  | preCallView (spinner : Bool) : View
  | activeCallView : View
deriving DecidableEq, Repr

/-- The render function: the error view shows the stored message with the
retry and cancel buttons; idle/connecting show the pre-call screen;
connected shows the active call. -/
def render (r : Refs) : View :=
  match r.status with
  | Status.error => View.errorView r.errorMsg true true
  | Status.idle => View.preCallView false
  | Status.connecting => View.preCallView true
  | Status.connected => View.activeCallView

/- ------------------------------------------------------------------ -/
/- Product extraction (`src/services/gemini.ts`, lines 8-56)           -/
/- ------------------------------------------------------------------ -/

/-- `ProductContext` from `src/types.ts`. -/
structure ProductContext where
  url : String
  companyName : String
  description : String
  sellingPoints : List String
deriving DecidableEq, Repr

/-- Outcome of the `ai.models.generateContent` call: it threw, or resolved
with no text, or resolved with text. -/
inductive AIResult where
  | threw (e : String) : AIResult
  | noText : AIResult
  | text (s : String) : AIResult
deriving DecidableEq, Repr

/-- The fallback mock returned by the `catch` block of `extractProductInfo`. -/
def fallbackProduct (url : String) : ProductContext :=
  { url := url,
    companyName := "Ukjent Bedrift",
    description := "Kunne ikke hente info automatisk. Bruker standard oppsett.",
    sellingPoints := ["Kvalitet", "Service", "Innovasjon"] }

/-- `extractProductInfo(url, manualText)` with the AI call and `JSON.parse`
made explicit.  `manualText` only feeds the prompt.  An AI throw, a missing
`response.text` (which raises `No response from AI` into the same `catch`),
or a `JSON.parse` failure all resolve to the fallback; a parsed response is
returned as-is. -/
def extractProductInfo (url : String) (manualText : String) (result : AIResult)
    (parseJson : String → Option ProductContext) : ProductContext :=
  match result with
  | AIResult.threw _ => fallbackProduct url
  | AIResult.noText => fallbackProduct url
  | AIResult.text s =>
      match parseJson s with
      | some p => p
      | none => fallbackProduct url

/-- The error cases of `extractProductInfo`: the AI call threw, returned no
text, or returned text that does not parse. -/
def extractErrCase (result : AIResult) (parseJson : String → Option ProductContext) : Bool :=
  match result with
  | AIResult.threw _ => true
  | AIResult.noText => true
  | AIResult.text s => (parseJson s).isNone

/-- A concrete `Refs` value in the connected state, used to evaluate the
theorems on explicit inputs. -/
def sampleConnected : Refs :=
  { stream := some { stopped := false },
    processor := some { connected := true },
    inputSource := some { connected := true },
    audioContext := some (),
    session := some { closed := false },
    sched := { nextStartTime := 7, active := [(0, 3), (3, 4)] },
    mounted := true,
    status := Status.connected,
    errorMsg := "",
    transcript := [{ role := Role.model, text := "Hallo?", timestamp := 0 }],
    isMuted := false,
    capturedMuted := false,
    volumeFrame := none }

/- ------------------------------------------------------------------ -/
/- Helper lemmas                                                       -/
/- ------------------------------------------------------------------ -/

theorem schedStarts_length (s : SchedState) (chunks : List (Rat × Rat)) :
    (schedStarts s chunks).length = chunks.length := by
  induction chunks generalizing s with
  | nil => rfl
  | cons c rest ih =>
      obtain ⟨t, d⟩ := c
      simp [schedStarts, ih]

theorem sum_take_getD (ds : List Rat) (i : Nat) (hi : i < ds.length) :
    (ds.take (i + 1)).sum = (ds.take i).sum + ds.getD i 0 := by
  induction ds generalizing i with
  | nil => cases hi
  | cons x tail ih =>
      cases i with
      | zero => simp
      | succ k =>
          have hk : k < tail.length := by simpa using hi
          simp [List.take_succ_cons, ih k hk]
          ring

theorem sum_take_le (ds : List Rat) (h0 : ∀ x ∈ ds, 0 ≤ x) (a b : Nat) (hab : a ≤ b) :
    (ds.take a).sum ≤ (ds.take b).sum := by
  have hb : b = a + (b - a) := (Nat.add_sub_cancel' hab).symm
  rw [hb, List.take_add, List.sum_append]
  have hnn : 0 ≤ ((ds.drop a).take (b - a)).sum := by
    refine List.sum_nonneg ?_
    intro x hx
    exact h0 x (List.drop_subset a ds (List.take_subset _ _ hx))
  linarith

theorem schedStarts_getD_onTime (chunks : List (Rat × Rat)) (s : SchedState)
    (h : onTime s chunks = true) :
    ∀ i, i < chunks.length →
      (schedStarts s chunks).getD i 0 = s.nextStartTime + ((durs chunks).take i).sum := by
  induction chunks generalizing s with
  | nil => intro i hi; cases hi
  | cons c rest ih =>
      obtain ⟨t, d⟩ := c
      rw [onTime, Bool.and_eq_true, decide_eq_true_iff] at h
      obtain ⟨h1, h2⟩ := h
      intro i hi
      cases i with
      | zero => simp [schedStarts, durs, max_eq_left h1]
      | succ k =>
          have hk : k < rest.length := by simpa using hi
          have hrec := ih (receiveBuffer s t d) h2 k hk
          simp only [schedStarts, List.getD_cons_succ, durs, List.map_cons,
            List.take_succ_cons, List.sum_cons] at hrec ⊢
          rw [hrec, receiveBuffer, max_eq_left h1]
          ring

theorem cleanup_idem (r : Refs) : cleanup (cleanup r) = cleanup r := by
  cases hs : r.stream <;> cases hi : r.inputSource <;>
    simp [cleanup, stopTracks, disconnectNode, hs, hi]

theorem cleanup_released (r : Refs) : resourcesReleased (cleanup r) = true := by
  cases hs : r.stream <;> cases hi : r.inputSource <;>
    simp [cleanup, stopTracks, disconnectNode, resourcesReleased, hs, hi]

theorem updateTranscript_nil (role : Role) (text : String) (now : Int) :
    updateTranscript role text now [] = [{ role := role, text := text, timestamp := now }] :=
  rfl

theorem updateTranscript_same_role (role : Role) (text : String) (now : Int)
    (ms : List ChatMessage) (m : ChatMessage) (h : m.role = role) :
    updateTranscript role text now (ms ++ [m])
      = ms ++ [{ m with text := m.text ++ text }] := by
  simp [updateTranscript, h]

theorem updateTranscript_new_role (role : Role) (text : String) (now : Int)
    (ms : List ChatMessage) (m : ChatMessage) (h : m.role ≠ role) :
    updateTranscript role text now (ms ++ [m])
      = ms ++ [m, { role := role, text := text, timestamp := now }] := by
  simp [updateTranscript, h]

theorem rmsSq_nonneg (frame : List Rat) : 0 ≤ rmsSq frame := by
  unfold rmsSq
  apply div_nonneg
  · apply List.sum_nonneg
    intro x hx
    simp only [List.mem_map] at hx
    obtain ⟨y, _, rfl⟩ := hx
    exact mul_self_nonneg y
  · exact Nat.cast_nonneg _

theorem vadForward_iff_rms_gt (frame : List Rat) :
    vadForward frame = true ↔ (1 : ℝ) / 100 < Real.sqrt ((rmsSq frame : ℝ)) := by
  rw [vadForward, decide_eq_true_iff]
  rw [Real.lt_sqrt (by norm_num : (0 : ℝ) ≤ 1 / 100)]
  rw [show ((1 : ℝ) / 100) ^ 2 = (((1 : ℚ) / 10000 : ℚ) : ℝ) by norm_num]
  exact ⟨fun h => by exact_mod_cast h, fun h => by exact_mod_cast h⟩

theorem captureRun_frames (r : Refs) (frames : List (List Rat))
    (hm : r.capturedMuted = false) (hs : r.session.isSome = true) :
    (captureRun r (frames.map CaptureEvent.frame)).2 = frames.filter vadForward := by
  induction frames generalizing r with
  | nil => rfl
  | cons f rest ih =>
      have hstep : onaudioprocess r f
          = ({ r with volumeFrame := some f },
             { volumeFrame := some f,
               sent := if vadForward f && r.session.isSome then some f else none }) := by
        simp [onaudioprocess, hm]
      simp only [List.map_cons, captureRun, hstep]
      rw [ih { r with volumeFrame := some f } hm hs]
      cases hv : vadForward f <;> simp [List.filter_cons, hv, hs]

/- ------------------------------------------------------------------ -/
/- Claim theorems                                                      -/
/- ------------------------------------------------------------------ -/

/-- C4: voice activity gate.  A frame passes the gate iff its RMS
(`Math.sqrt` of the mean square) strictly exceeds the `0.01` threshold, a
frame whose RMS is exactly `0.01` is suppressed, and the decision is
memoryless: over any captured frame sequence on the unmuted path (handler
installed with the captured mute flag off, session present) the forwarded
frames are precisely the per-frame filter by the gate, with no hysteresis
or debounce across frames. -/
theorem C4_vad_gate :
    (∀ frame : List Rat,
        vadForward frame = true ↔ (1 : ℝ) / 100 < Real.sqrt ((rmsSq frame : ℝ)))
    ∧ (∀ frame : List Rat,
        Real.sqrt ((rmsSq frame : ℝ)) = 1 / 100 → vadForward frame = false)
    ∧ (∀ (r : Refs) (frames : List (List Rat)), r.capturedMuted = false →
        r.session.isSome = true →
        (captureRun r (frames.map CaptureEvent.frame)).2 = frames.filter vadForward) := by
  refine ⟨vadForward_iff_rms_gt, ?_, captureRun_frames⟩
  intro frame h
  cases hv : vadForward frame with
  | false => rfl
  | true =>
      exfalso
      have hlt := (vadForward_iff_rms_gt frame).1 hv
      rw [h] at hlt
      exact lt_irrefl _ hlt

/-- C4 witness: the single-sample frame `[1/100]` has RMS exactly `0.01`
and is suppressed; over the concrete frame sequence `[[1/10], [0]]` in the
sample connected state exactly the loud frame is forwarded. -/
theorem C4_vad_gate_witness :
    vadForward [1 / 100] = false
    ∧ (captureRun sampleConnected
        ([[1 / 10], [0]].map CaptureEvent.frame)).2 = [[1 / 10]] := by
  have hsq : ((rmsSq [1 / 100] : ℚ) : ℝ) = ((1 : ℝ) / 100) ^ 2 := by
    rw [show rmsSq [1 / 100] = 1 / 10000 by norm_num [rmsSq]]
    push_cast
    norm_num
  constructor
  · exact C4_vad_gate.2.1 [1 / 100]
      (by rw [hsq, Real.sqrt_sq (by norm_num : (0 : ℝ) ≤ 1 / 100)])
  · rw [C4_vad_gate.2.2 sampleConnected [[1 / 10], [0]] rfl rfl]
    have h1 : vadForward [1 / 10] = true := by
      rw [vadForward, decide_eq_true_iff]
      norm_num [rmsSq]
    have h2 : vadForward [0] = false := by
      rw [vadForward]
      norm_num [rmsSq]
    simp only [List.filter_cons, List.filter_nil, h1, h2]
    simp

/-- C6: mute frame effect — the code contradicts the claim.  The
`onaudioprocess` handler is installed once by `setupAudioInput` and its
line-209 guard reads the `isMuted` binding its closure captured at that
render; `isMuted` is plain `useState`, the handler is never reinstalled,
and no effect re-wires it, so a mute toggle after setup never reaches the
guard.  Evaluating the code at the failing input: a session connected with
mute off, the user toggles mute (the UI flag now reads muted), and a loud
frame (RMS `0.1 > 0.01`) arrives — its loudness is still computed and it is
still forwarded upstream, where the claim says nothing is sent. -/
theorem C6_mute_stale_closure :
    (toggleMute sampleConnected).isMuted = true
    ∧ (onaudioprocess (toggleMute sampleConnected) [1 / 10]).2.sent = some [1 / 10]
    ∧ (onaudioprocess (toggleMute sampleConnected) [1 / 10]).2.volumeFrame
        = some [1 / 10] := by
  have h1 : vadForward [1 / 10] = true := by
    rw [vadForward, decide_eq_true_iff]
    norm_num [rmsSq]
  have h2 : (onaudioprocess (toggleMute sampleConnected) [1 / 10]).2.sent
      = if vadForward [1 / 10] && (toggleMute sampleConnected).session.isSome
        then some [1 / 10] else none := rfl
  refine ⟨rfl, ?_, rfl⟩
  rw [h2, h1]
  rfl

/-- C8: decode failures are locally recovered.  A received chunk whose
decode fails (the `catch` only logs) leaves the session status, the active
set, the transcript and the session handle untouched; and when the chunk
arrived on time (clock not past the projected `nextStartTime`), the failure
leaves the scheduler state entirely unchanged, so every subsequent chunk is
scheduled exactly as if the bad chunk had never arrived. -/
theorem C8_decode_failure_recovery (r : Refs) (clock : Rat)
    (hst : r.status = Status.connected) :
    ((onAudioChunk r clock none).status = Status.connected)
    ∧ ((onAudioChunk r clock none).sched.active = r.sched.active)
    ∧ ((onAudioChunk r clock none).transcript = r.transcript)
    ∧ ((onAudioChunk r clock none).session = r.session)
    ∧ (clock ≤ r.sched.nextStartTime →
        ∀ (c2 : Rat) (dec : Option Rat),
          onAudioChunk (onAudioChunk r clock none) c2 dec = onAudioChunk r c2 dec) := by
  have hid : clock ≤ r.sched.nextStartTime → onAudioChunk r clock none = r := by
    intro hc
    by_cases hg : r.mounted && r.audioContext.isSome
    · simp [onAudioChunk, hg, max_eq_left hc]
    · simp [onAudioChunk, hg]
  refine ⟨?_, ?_, ?_, ?_, ?_⟩
  · by_cases hg : r.mounted && r.audioContext.isSome <;> simp [onAudioChunk, hg, hst]
  · by_cases hg : r.mounted && r.audioContext.isSome <;> simp [onAudioChunk, hg]
  · by_cases hg : r.mounted && r.audioContext.isSome <;> simp [onAudioChunk, hg]
  · by_cases hg : r.mounted && r.audioContext.isSome <;> simp [onAudioChunk, hg]
  · intro hc c2 dec
    rw [hid hc]

/-- C8 witness: a decode failure at clock 5 in the sample connected state
(projected `nextStartTime = 7`) changes nothing, and a following good chunk
is scheduled exactly as without the failure. -/
theorem C8_decode_failure_recovery_witness :
    ((onAudioChunk sampleConnected 5 none).status = Status.connected)
    ∧ ((onAudioChunk sampleConnected 5 none).sched.active = [(0, 3), (3, 4)])
    ∧ (onAudioChunk (onAudioChunk sampleConnected 5 none) 8 (some 2)
        = onAudioChunk sampleConnected 8 (some 2)) := by
  obtain ⟨h1, h2, h3, h4, h5⟩ :=
    C8_decode_failure_recovery sampleConnected 5 rfl
  exact ⟨h1, h2, h5 (by norm_num [sampleConnected]) 8 (some 2)⟩

/-- C1: gap-less playback scheduling.  For a sequence of decoded buffers
`(arrival clock, duration)` delivered in order and without interruption of
the audio (formalized by `onTime`: after the first buffer, every buffer
arrives no later than the projected `nextStartTime`), buffer `i`'s start
time equals the first buffer's start time plus the sum of the durations of
the buffers before it, and no two scheduled buffers overlap: buffer `i`
ends (start + duration) no later than buffer `j` starts, for `i < j`. -/
theorem C1_gapless_scheduling (s : SchedState) (t1 d1 : Rat) (rest : List (Rat × Rat))
    (hon : onTime (receiveBuffer s t1 d1) rest = true)
    (hd : ∀ p ∈ (t1, d1) :: rest, 0 ≤ p.2) :
    (∀ i, i < ((t1, d1) :: rest).length →
        (schedStarts s ((t1, d1) :: rest)).getD i 0
          = (schedStarts s ((t1, d1) :: rest)).getD 0 0
              + ((durs ((t1, d1) :: rest)).take i).sum)
    ∧ (∀ i j, i < j → j < ((t1, d1) :: rest).length →
        (schedStarts s ((t1, d1) :: rest)).getD i 0 + (durs ((t1, d1) :: rest)).getD i 0
          ≤ (schedStarts s ((t1, d1) :: rest)).getD j 0) := by
  have hdurs_len : (durs ((t1, d1) :: rest)).length = ((t1, d1) :: rest).length := by
    simp [durs]
  have hform : ∀ i, i < ((t1, d1) :: rest).length →
      (schedStarts s ((t1, d1) :: rest)).getD i 0
        = (schedStarts s ((t1, d1) :: rest)).getD 0 0
            + ((durs ((t1, d1) :: rest)).take i).sum := by
    intro i hi
    cases i with
    | zero => simp
    | succ k =>
        have hk : k < rest.length := by simpa using hi
        have hrec := schedStarts_getD_onTime rest (receiveBuffer s t1 d1) hon k hk
        simp only [schedStarts, List.getD_cons_succ, List.getD_cons_zero, durs,
          List.map_cons, List.take_succ_cons, List.sum_cons]
        simp only [durs] at hrec
        rw [hrec]
        simp only [receiveBuffer]
        ring
  refine ⟨hform, ?_⟩
  intro i j hij hj
  have hi : i < ((t1, d1) :: rest).length := Nat.lt_trans hij hj
  have hi' : i < (durs ((t1, d1) :: rest)).length := by rw [hdurs_len]; exact hi
  have hnn : ∀ x ∈ durs ((t1, d1) :: rest), 0 ≤ x := by
    intro x hx
    simp only [durs, List.mem_map] at hx
    obtain ⟨p, hp, hpx⟩ := hx
    exact hpx ▸ hd p hp
  have hsum : ((durs ((t1, d1) :: rest)).take i).sum + (durs ((t1, d1) :: rest)).getD i 0
      ≤ ((durs ((t1, d1) :: rest)).take j).sum := by
    rw [← sum_take_getD _ i hi']
    exact sum_take_le _ hnn (i + 1) j hij
  have h1 := hform i hi
  have h2 := hform j hj
  rw [h1, h2]
  linarith

/-- C1 witness: the scheduler state `⟨0, []⟩` fed the on-time chunk
sequence `[(0,2), (1,3), (2,1)]` assigns start times `[0, 2, 5]`: buffer 2
starts at the first start plus `2 + 3`, and buffer 0 ends before buffer 2
starts. -/
theorem C1_gapless_scheduling_witness :
    ((schedStarts ⟨0, []⟩ [(0, 2), (1, 3), (2, 1)]).getD 2 0
        = (schedStarts ⟨0, []⟩ [(0, 2), (1, 3), (2, 1)]).getD 0 0
            + ((durs [(0, 2), (1, 3), (2, 1)]).take 2).sum)
    ∧ ((schedStarts ⟨0, []⟩ [(0, 2), (1, 3), (2, 1)]).getD 0 0
          + (durs [(0, 2), (1, 3), (2, 1)]).getD 0 0
        ≤ (schedStarts ⟨0, []⟩ [(0, 2), (1, 3), (2, 1)]).getD 2 0) :=
  ⟨(C1_gapless_scheduling ⟨0, []⟩ 0 2 [(1, 3), (2, 1)]
      (by norm_num [onTime, receiveBuffer]) (by norm_num)).1 2 (by norm_num),
   (C1_gapless_scheduling ⟨0, []⟩ 0 2 [(1, 3), (2, 1)]
      (by norm_num [onTime, receiveBuffer]) (by norm_num)).2 0 2 (by norm_num) (by norm_num)⟩

/-- C2: interruption hard cut.  On an interruption arriving at output clock
`T` in a mounted component with a live output context, `stop()` is called
on every buffer of the active set (the returned list is exactly the former
active set), the active set becomes empty, `nextStartTime` is reset to `T`,
and a buffer delivered right after the interruption (clock still `T`)
is scheduled at `T`. -/
theorem C2_interruption_hard_cut (r : Refs) (clock : Rat)
    (hm : r.mounted = true) (hc : r.audioContext.isSome = true) :
    (onInterrupted r clock).2 = r.sched.active
    ∧ (onInterrupted r clock).1.sched.active = []
    ∧ (onInterrupted r clock).1.sched.nextStartTime = clock
    ∧ schedStartOf (onInterrupted r clock).1.sched clock = clock := by
  simp [onInterrupted, hm, hc, schedStartOf]

/-- C2 witness: interrupting the sample connected state (two active
buffers, projected `nextStartTime = 7`) at clock 9 stops both buffers,
empties the set, and makes the next buffer start at 9. -/
theorem C2_interruption_hard_cut_witness :
    (onInterrupted sampleConnected 9).2 = [(0, 3), (3, 4)]
    ∧ (onInterrupted sampleConnected 9).1.sched.active = []
    ∧ (onInterrupted sampleConnected 9).1.sched.nextStartTime = 9
    ∧ schedStartOf (onInterrupted sampleConnected 9).1.sched 9 = 9 :=
  C2_interruption_hard_cut sampleConnected 9 rfl rfl

/-- C3: transcript assembly.  A delta whose role matches the most recent
message is concatenated onto that message's text (keeping its timestamp); a
delta with a different role, or arriving on an empty transcript, starts a
new message with the delta text and the current time; and a delta sequence
with roles `[A, A, B, A]` (`A ≠ B`) yields exactly the three messages
`[A: a1 ++ a2, B: b, A: a3]` in arrival order. -/
theorem C3_transcript_assembly (A B : Role) (a1 a2 b a3 : String) (t1 t2 t3 t4 : Int)
    (hAB : A ≠ B) :
    (∀ role text now ms (m : ChatMessage), m.role = role →
        updateTranscript role text now (ms ++ [m])
          = ms ++ [{ m with text := m.text ++ text }])
    ∧ (∀ role text now ms (m : ChatMessage), m.role ≠ role →
        updateTranscript role text now (ms ++ [m])
          = ms ++ [m, { role := role, text := text, timestamp := now }])
    ∧ (∀ role text now, updateTranscript role text now []
          = [{ role := role, text := text, timestamp := now }])
    ∧ runDeltas [] [(A, a1, t1), (A, a2, t2), (B, b, t3), (A, a3, t4)]
        = [{ role := A, text := a1 ++ a2, timestamp := t1 },
           { role := B, text := b, timestamp := t3 },
           { role := A, text := a3, timestamp := t4 }] := by
  refine ⟨updateTranscript_same_role, updateTranscript_new_role, updateTranscript_nil, ?_⟩
  have h1 : updateTranscript A a1 t1 [] = [{ role := A, text := a1, timestamp := t1 }] :=
    updateTranscript_nil A a1 t1
  have h2 := updateTranscript_same_role A a2 t2 [] { role := A, text := a1, timestamp := t1 } rfl
  have h3 := updateTranscript_new_role B b t3 [] { role := A, text := a1 ++ a2, timestamp := t1 }
    (by simpa using hAB)
  have h4 := updateTranscript_new_role A a3 t4 [{ role := A, text := a1 ++ a2, timestamp := t1 }]
    { role := B, text := b, timestamp := t3 } (by simpa using (Ne.symm hAB))
  simp only [runDeltas, h1]
  simp only [List.nil_append] at h2 h3
  rw [h2, h3]
  simpa using h4

/-- C3 witness: the theorem instantiated at the concrete roles
`model, user` and concrete delta texts. -/
theorem C3_transcript_assembly_witness :
    runDeltas [] [(Role.model, "Hei", 1), (Role.model, " der", 2),
                  (Role.user, "stopp", 3), (Role.model, "ok", 4)]
      = [{ role := Role.model, text := "Hei der", timestamp := 1 },
         { role := Role.user, text := "stopp", timestamp := 3 },
         { role := Role.model, text := "ok", timestamp := 4 }] :=
  (C3_transcript_assembly Role.model Role.user "Hei" " der" "stopp" "ok" 1 2 3 4
    (by decide)).2.2.2

/-- C9: the resource release `cleanup` is idempotent — a second run is a
no-op with the same final state — and from every partially initialized
resource state (every subset of stream / processor / input source / audio
context actually acquired) it succeeds and leaves the capture side
released. -/
theorem C9_cleanup_idempotent (r : Refs) :
    cleanup (cleanup r) = cleanup r ∧ resourcesReleased (cleanup r) = true :=
  ⟨cleanup_idem r, cleanup_released r⟩

/-- C10: `extractProductInfo` recovers every error case — an AI call that
throws, a response with no text, or a response whose text does not parse —
by resolving (never rejecting) to the fallback `ProductContext`, whose
`url` is the input url, whose `companyName` is `Ukjent Bedrift`, and whose
`sellingPoints` has exactly 3 entries. -/
theorem C10_extract_fallback (url manualText : String) (result : AIResult)
    (parseJson : String → Option ProductContext)
    (herr : extractErrCase result parseJson = true) :
    extractProductInfo url manualText result parseJson = fallbackProduct url
    ∧ (extractProductInfo url manualText result parseJson).url = url
    ∧ (extractProductInfo url manualText result parseJson).companyName = "Ukjent Bedrift"
    ∧ (extractProductInfo url manualText result parseJson).sellingPoints.length = 3 := by
  have hfb : extractProductInfo url manualText result parseJson = fallbackProduct url := by
    cases result with
    | threw e => rfl
    | noText => rfl
    | text s =>
        simp only [extractErrCase, Option.isNone_iff_eq_none] at herr
        simp [extractProductInfo, herr]
  refine ⟨hfb, ?_, ?_, ?_⟩ <;> rw [hfb] <;> rfl

/-- C10 witness: a concrete throwing AI call resolves to the concrete
fallback for the given url. -/
theorem C10_extract_fallback_witness :
    extractProductInfo "https://example.no" "manuell tekst" (AIResult.threw "boom")
        (fun _ => none)
      = fallbackProduct "https://example.no"
    ∧ (extractProductInfo "https://example.no" "manuell tekst" (AIResult.threw "boom")
        (fun _ => none)).url = "https://example.no"
    ∧ (extractProductInfo "https://example.no" "manuell tekst" (AIResult.threw "boom")
        (fun _ => none)).companyName = "Ukjent Bedrift"
    ∧ (extractProductInfo "https://example.no" "manuell tekst" (AIResult.threw "boom")
        (fun _ => none)).sellingPoints.length = 3 :=
  C10_extract_fallback "https://example.no" "manuell tekst" (AIResult.threw "boom")
    (fun _ => none) rfl

theorem serverStep_error (r : Refs) (e : ServerEvent) (h : r.status = Status.error) :
    (serverStep r e).status = Status.error := by
  cases e with
  | transcriptDelta role text now =>
      by_cases hm : r.mounted <;> simp [serverStep, onTranscriptDelta, hm, h]
  | audioChunk clock decode =>
      by_cases hg : r.mounted && r.audioContext.isSome
      · cases decode <;> simp [serverStep, onAudioChunk, hg, h]
      · simp [serverStep, onAudioChunk, hg, h]
  | interrupted clock =>
      by_cases hm : r.mounted <;> simp [serverStep, onInterrupted, hm, h]
  | closed => exact h
  | errorEvt =>
      by_cases hm : r.mounted <;> simp [serverStep, onerror, hm, h]

theorem serverRun_error (r : Refs) (h : r.status = Status.error) :
    ∀ es : List ServerEvent, (serverRun r es).status = Status.error := by
  intro es
  induction es generalizing r with
  | nil => exact h
  | cons e es ih => exact ih (serverStep r e) (serverStep_error r e h)

/-- C5 counterexample: after hangup (and the resulting unmount) in the
sample connected state, the live-session handle is still unclosed and the
active-buffer set still holds both buffers — `cleanup` never touches
`sessionPromiseRef` or `audioQueueRef` — refuting the claim that hangup
closes the transport connection and clears the playback active set. -/
theorem C5_hangup_leak_cex :
    transportClosed (unmount (handleHangup sampleConnected).1) = false
    ∧ (unmount (handleHangup sampleConnected).1).sched.active = [(0, 3), (3, 4)] :=
  ⟨rfl, rfl⟩

/-- C5 (amended): calling hangup at any point — including while still
connecting — releases the capture side (tracks stopped, processor and input
source disconnected, audio context closed; idempotently, from any partially
initialized state), hands the transcript to the caller, and after the
resulting unmount a pending connect result is discarded (a late `onopen` is
a no-op); however the transport session handle is left unclosed and the
playback active-buffer set is not cleared. -/
theorem C5_hangup_release (r : Refs) :
    resourcesReleased (handleHangup r).1 = true
    ∧ (handleHangup r).2 = r.transcript
    ∧ (unmount (handleHangup r).1).mounted = false
    ∧ onopen (unmount (handleHangup r).1) = unmount (handleHangup r).1
    ∧ (unmount (handleHangup r).1).session = r.session
    ∧ (unmount (handleHangup r).1).sched = r.sched := by
  refine ⟨cleanup_released r, rfl, rfl, ?_, rfl, rfl⟩
  have hm : (unmount (handleHangup r).1).mounted = false := rfl
  simp [onopen, hm]

/-- C7 counterexample: the runtime-error handler only sets the status and
the message; in the resulting error state the microphone stream is still
live and the output audio context still open, refuting the claim that all
resources are released in the `Error` state. -/
theorem C7_error_resources_cex :
    (onerror sampleConnected).status = Status.error
    ∧ resourcesReleased (onerror sampleConnected) = false :=
  ⟨rfl, rfl⟩

/-- C7 (amended): a runtime transport error while connected and mounted
flips the status to `error` with the descriptive message retained, the
error view renders the stored message offering retry and cancel, no
automatic reconnection ever occurs — any further sequence of server events
leaves the status `error`, and only the explicit user retry click re-enters
`connecting` — but the resources (stream, audio context, session) are NOT
released on entering the error state. -/
theorem C7_transport_error (r : Refs) (hm : r.mounted = true)
    (hst : r.status = Status.connected) :
    (onerror r).status = Status.error
    ∧ (onerror r).errorMsg = serverErrorMsg
    ∧ render (onerror r) = View.errorView serverErrorMsg true true
    ∧ (∀ es : List ServerEvent, (serverRun (onerror r) es).status = Status.error)
    ∧ (retryClick (onerror r) (Except.ok ())).status = Status.connecting
    ∧ ((onerror r).stream = r.stream ∧ (onerror r).audioContext = r.audioContext
        ∧ (onerror r).session = r.session) := by
  have he : onerror r = { r with status := Status.error, errorMsg := serverErrorMsg } := by
    simp [onerror, hm]
  have h1 : (onerror r).status = Status.error := by rw [he]
  refine ⟨h1, by rw [he], by rw [he]; rfl, serverRun_error (onerror r) h1, ?_,
    by rw [he], by rw [he], by rw [he]⟩
  rw [he]
  simp [retryClick, startSession]

/-- C7 witness: the amended theorem evaluated at the sample connected
state, with the concrete post-error event sequence `[closed, errorEvt]`. -/
theorem C7_transport_error_witness :
    (onerror sampleConnected).status = Status.error
    ∧ (onerror sampleConnected).errorMsg = serverErrorMsg
    ∧ render (onerror sampleConnected) = View.errorView serverErrorMsg true true
    ∧ (serverRun (onerror sampleConnected)
        [ServerEvent.closed, ServerEvent.errorEvt]).status = Status.error
    ∧ (retryClick (onerror sampleConnected) (Except.ok ())).status = Status.connecting
    ∧ (onerror sampleConnected).stream = some { stopped := false } := by
  obtain ⟨h1, h2, h3, h4, h5, h6, _, _⟩ := C7_transport_error sampleConnected rfl rfl
  exact ⟨h1, h2, h3, h4 [ServerEvent.closed, ServerEvent.errorEvt], h5, h6⟩

end Salgstrener
